import Mathlib

/-!
Verification development for the predictGrowth bot backend.

The definitions below are a shallow embedding of the LLM response
orchestration and validation pipeline of `src/backend/src/llmService.ts`
and of the `POST /api/ask` request handler.  JavaScript values produced
by `JSON.parse` are modelled by the inductive type `Json`; JavaScript
strings are modelled by Lean `String` (a list of characters); the
builtin `JSON.parse` is modelled by the executable `jsonParse` below,
following the ECMA-404 grammar that `JSON.parse` implements.
-/

/-- A JavaScript value as produced by `JSON.parse`:
`null`, booleans, numbers, strings, arrays and plain objects.
A number is kept in the exact decimal form `m * 10 ^ e` in which it was
written (double rounding is irrelevant here: the pipeline never computes
with numbers, it only tests them for truthiness and strict equality with
strings). An object is a list of key/value pairs with distinct keys
(later duplicate keys overwrite earlier ones during parsing, as in JS). -/
inductive Json where
  | null : Json
  | bool (b : Bool) : Json
  | num (m : Int) (e : Int) : Json
  | str (s : String) : Json
  | arr (elems : List Json) : Json
  | obj (fields : List (String × Json)) : Json

/-- The backtick character, written via its code point. -/
def backquoteChar : Char := Char.ofNat 96

/-- JavaScript `\s` / `String.prototype.trim` whitespace class
(WhiteSpace plus LineTerminator code points). -/
def isJsWsChar (c : Char) : Bool :=
  c = ' ' || c = '\t' || c = '\n' || c = '\r' ||
  c = Char.ofNat 0x0B || c = Char.ofNat 0x0C ||
  c = Char.ofNat 0xA0 || c = Char.ofNat 0x1680 ||
  (0x2000 ≤ c.toNat && c.toNat ≤ 0x200A) ||
  c = Char.ofNat 0x2028 || c = Char.ofNat 0x2029 ||
  c = Char.ofNat 0x202F || c = Char.ofNat 0x205F ||
  c = Char.ofNat 0x3000 || c = Char.ofNat 0xFEFF

/-- Drop trailing JS whitespace from a character list. -/
def dropTrailingWs (l : List Char) : List Char :=
  (l.reverse.dropWhile isJsWsChar).reverse

/-- JS `String.prototype.trim` on a character list. -/
def jsTrimList (l : List Char) : List Char :=
  dropTrailingWs (l.dropWhile isJsWsChar)

/-- JS `String.prototype.trim`. -/
def jsTrim (s : String) : String :=
  ⟨jsTrimList s.data⟩

/-!
The markdown fence extraction of `parseAndValidateAIResponse`
(llmService.ts lines 213-221) matches the trimmed raw content against
the anchored JavaScript regular expression

  `/^` + three backticks + `(?:json)?\s*([\s\S]*?)\s*` + three backticks + `$/`

and, when the match exists with a truthy (non-empty) group 1, replaces
the working string by the trimmed group.  `fenceGroup` computes the
group of that regex deterministically, following the JS backtracking
order: the optional `json` label is greedy (tried first), the first
`\s*` is greedy, the group `([\s\S]*?)` is lazy, the second `\s*` is
greedy, and both ends are anchored.  Because whitespace and backticks
are disjoint character classes, the greedy `\s*` never has to backtrack
when a match exists, so the group is: drop the leading whitespace after
the opening fence (and optional label), drop the closing three
backticks, then drop trailing whitespace.
-/

/-- Match the tail of the fence regex against `r1` (the input after the
opening backticks and optional `json` label): `\s*([\s\S]*?)\s*` then
three closing backticks, anchored at the end.  Returns the group. -/
def fenceTryTail (r1 : List Char) : Option (List Char) :=
  let r2 := r1.dropWhile isJsWsChar
  if 3 ≤ r2.length && r2.drop (r2.length - 3) = [backquoteChar, backquoteChar, backquoteChar] then
    some (dropTrailingWs (r2.take (r2.length - 3)))
  else
    none

/-- Group 1 of the fence regex applied to `t`, or `none` when the regex
does not match `t`.  The `(?:json)?` option is greedy: the branch that
consumes the label is tried first. -/
def fenceGroup (t : List Char) : Option (List Char) :=
  if t.take 3 = [backquoteChar, backquoteChar, backquoteChar] then
    let r0 := t.drop 3
    if r0.take 4 = ['j', 's', 'o', 'n'] then
      match fenceTryTail (r0.drop 4) with
      | some g => some g
      | none => fenceTryTail r0
    else
      fenceTryTail r0
  else
    none

/-- Lines 213-221 of `parseAndValidateAIResponse`: trim the raw content;
if the whole trimmed text is a code fence with a truthy (non-empty)
group, continue with the trimmed group, otherwise with the trimmed text
unchanged (the branch that merely logs a warning is behaviourally a
no-op). -/
def extract (s : String) : String :=
  let t := jsTrim s
  match fenceGroup t.data with
  | some g => if g ≠ [] then ⟨jsTrimList g⟩ else t
  | none => t

/-!
`removeMarkdownBold` (llmService.ts lines 287-290) is

  text.replace(star-star-lazy-group-star-star /g, group)
      .replace(underscore-underscore-lazy-group-underscore-underscore /g, group)

Both regexes have the shape `dd(.*?)dd` for a delimiter character `d`;
`.` does not match the JS line terminators.  The global replace scans
left to right; at a position starting with `dd` it matches when a
closing `dd` occurs later with only non-line-terminator characters in
between (the lazy group picks the first such closing), replaces the
match by the group, and resumes after it; otherwise it advances one
character.
-/

/-- JS regex `.` fails exactly on the line terminators. -/
def isJsLineTerm (c : Char) : Bool :=
  c = '\n' || c = '\r' || c = Char.ofNat 0x2028 || c = Char.ofNat 0x2029

/-- Scan for the first closing double-delimiter `dd`; return the
characters before it and the rest after it.  Fails on a line terminator
or the end of input. -/
def findBoldClose (d : Char) : List Char → Option (List Char × List Char)
  | [] => none
  | c :: cs =>
    if c = d && cs.head? = some d then
      some ([], cs.tail)
    else if isJsLineTerm c then
      none
    else
      match findBoldClose d cs with
      | some (inner, rest) => some (c :: inner, rest)
      | none => none

/-- One global-replace pass of `dd(.*?)dd` with replacement `$1`.
The fuel is decremented once per consumed character, so an initial fuel
of the input length is sufficient. -/
def replaceBoldAux (d : Char) : Nat → List Char → List Char
  | 0, l => l
  | _ + 1, [] => []
  | f + 1, c :: cs =>
    if c = d && cs.head? = some d then
      match findBoldClose d cs.tail with
      | some (inner, rest) => inner ++ replaceBoldAux d f rest
      | none => c :: replaceBoldAux d f cs
    else
      c :: replaceBoldAux d f cs

/-- `removeMarkdownBold` of llmService.ts: strip `**bold**` emphasis,
then `__bold__` emphasis.  (The `typeof text !== 'string'` guard of the
source is vacuous here because the argument is a string by type.) -/
def removeMarkdownBold (text : String) : String :=
  let p1 := replaceBoldAux '*' text.data.length text.data
  ⟨replaceBoldAux '_' p1.length p1⟩

/-!
A model of the JavaScript builtin `JSON.parse`, following the ECMA-404
grammar it implements: a JSON text is a single value surrounded by
optional whitespace from the set space, tab, line feed, carriage
return; strings are double-quoted with the eight escapes and `\uXXXX`;
numbers are `-? int frac? exp?` with no leading zeros; objects and
arrays are comma-separated with no trailing comma.  Later duplicate
object keys overwrite earlier ones, keeping the original position, as
in JS.  (Two deliberate approximations, both irrelevant to the claims:
numbers are kept in exact decimal form instead of being rounded to
doubles, and a lone UTF-16 surrogate escape becomes U+FFFD because a
Lean `Char` cannot hold a surrogate code unit.)
-/

/-- JSON (not JS) whitespace: the four characters of the ECMA-404
`ws` production. -/
def isJsonWs (c : Char) : Bool :=
  c = ' ' || c = '\t' || c = '\n' || c = '\r'

/-- Skip JSON whitespace. -/
def skipJsonWs (cs : List Char) : List Char :=
  cs.dropWhile isJsonWs

/-- Hexadecimal digit value (code points 48-57, 97-102, 65-70). -/
def hexVal (c : Char) : Option Nat :=
  let n := c.toNat
  if 48 ≤ n ∧ n ≤ 57 then some (n - 48)
  else if 97 ≤ n ∧ n ≤ 102 then some (n - 87)
  else if 65 ≤ n ∧ n ≤ 70 then some (n - 55)
  else none

/-- Value of four hex digits. -/
def hex4 (a b c d : Char) : Option Nat := do
  let va ← hexVal a
  let vb ← hexVal b
  let vc ← hexVal c
  let vd ← hexVal d
  pure (((va * 16 + vb) * 16 + vc) * 16 + vd)

/-- The code point for a `\uXXXX` value `n`, consuming a following
low-surrogate escape from `rest` when `n` is a high surrogate.
Lone surrogates become U+FFFD. -/
def uEscape (n : Nat) (rest : List Char) : Char × List Char :=
  if 0xD800 ≤ n && n ≤ 0xDBFF then
    match rest with
    | '\\' :: 'u' :: a :: b :: c :: d :: r2 =>
      match hex4 a b c d with
      | some m =>
        if 0xDC00 ≤ m && m ≤ 0xDFFF then
          (Char.ofNat (0x10000 + (n - 0xD800) * 0x400 + (m - 0xDC00)), r2)
        else (Char.ofNat 0xFFFD, rest)
      | none => (Char.ofNat 0xFFFD, rest)
    | _ => (Char.ofNat 0xFFFD, rest)
  else if 0xDC00 ≤ n && n ≤ 0xDFFF then (Char.ofNat 0xFFFD, rest)
  else (Char.ofNat n, rest)

/-- Parse the body of a JSON string after the opening quote; `acc` is
the reversed content so far.  Unescaped control characters below
U+0020 are rejected, as `JSON.parse` rejects them. -/
def parseStrBody (fuel : Nat) (acc : List Char) (cs : List Char) :
    Option (String × List Char) :=
  match fuel, cs with
  | _, [] => none
  | 0, _ => none
  | f + 1, c :: rest =>
    if c = '"' then
      some (⟨acc.reverse⟩, rest)
    else if c = '\\' then
      match rest with
      | '"' :: r => parseStrBody f ('"' :: acc) r
      | '\\' :: r => parseStrBody f ('\\' :: acc) r
      | '/' :: r => parseStrBody f ('/' :: acc) r
      | 'b' :: r => parseStrBody f (Char.ofNat 8 :: acc) r
      | 'f' :: r => parseStrBody f (Char.ofNat 12 :: acc) r
      | 'n' :: r => parseStrBody f ('\n' :: acc) r
      | 'r' :: r => parseStrBody f ('\r' :: acc) r
      | 't' :: r => parseStrBody f ('\t' :: acc) r
      | 'u' :: a :: b :: c2 :: d :: r =>
        match hex4 a b c2 d with
        | some n =>
          match uEscape n r with
          | (ch, r2) => parseStrBody f (ch :: acc) r2
        | none => none
      | _ => none
    else if c.toNat < 0x20 then
      none
    else
      parseStrBody f (c :: acc) rest

/-- Digit characters to a natural number, most significant first. -/
def digitsToNat (ds : List Char) : Nat :=
  ds.foldl (fun n c => n * 10 + (c.toNat - '0'.toNat)) 0

/-- Parse a JSON number starting at `cs` (first character is a digit or
a minus sign).  Returns the mantissa and decimal exponent. -/
def parseJsonNum (cs : List Char) : Option (Json × List Char) :=
  let (neg, cs1) :=
    match cs with
    | '-' :: r => (true, r)
    | _ => (false, cs)
  let intPart : Option (List Char × List Char) :=
    match cs1 with
    | '0' :: r => some (['0'], r)
    | c :: _ =>
      if '1' ≤ c && c ≤ '9' then
        some (cs1.span (·.isDigit))
      else none
    | [] => none
  match intPart with
  | none => none
  | some (ids, cs2) =>
    let fracPart : Option (List Char × List Char) :=
      match cs2 with
      | '.' :: r =>
        let (fds, r2) := r.span (·.isDigit)
        if fds = [] then none else some (fds, r2)
      | _ => some ([], cs2)
    match fracPart with
    | none => none
    | some (fds, cs3) =>
      let expPart : Option (Int × List Char) :=
        match cs3 with
        | e :: r =>
          if e = 'e' || e = 'E' then
            let (esign, r1) :=
              match r with
              | '+' :: r2 => ((1 : Int), r2)
              | '-' :: r2 => ((-1 : Int), r2)
              | _ => ((1 : Int), r)
            let (eds, r2) := r1.span (·.isDigit)
            if eds = [] then none else some (esign * (digitsToNat eds : Int), r2)
          else some (0, cs3)
        | [] => some (0, cs3)
      match expPart with
      | none => none
      | some (ex, cs4) =>
        let mag : Int := (digitsToNat (ids ++ fds) : Int)
        let m : Int := if neg then -mag else mag
        some (Json.num m (ex - (fds.length : Int)), cs4)

/-- Insert key `k` with value `v` into an object's field list the way a
JS property store does: overwrite in place when the key exists, append
otherwise. -/
def objInsert : List (String × Json) → String → Json → List (String × Json)
  | [], k, v => [(k, v)]
  | (k', v') :: rest, k, v =>
    if k' = k then (k, v) :: rest else (k', v') :: objInsert rest k v

mutual

/-- Parse one JSON value at the head of `cs` (no leading whitespace). -/
def parseJsonVal : Nat → List Char → Option (Json × List Char)
  | 0, _ => none
  | f + 1, cs =>
    match cs with
    | [] => none
    | c :: rest =>
      if c = Char.ofNat 123 then
        parseJsonMembers f (skipJsonWs rest) [] true
      else if c = '[' then
        parseJsonElems f (skipJsonWs rest) [] true
      else if c = '"' then
        match parseStrBody rest.length [] rest with
        | some (s, r) => some (Json.str s, r)
        | none => none
      else if c = 'n' then
        match cs with
        | 'n' :: 'u' :: 'l' :: 'l' :: r => some (Json.null, r)
        | _ => none
      else if c = 't' then
        match cs with
        | 't' :: 'r' :: 'u' :: 'e' :: r => some (Json.bool true, r)
        | _ => none
      else if c = 'f' then
        match cs with
        | 'f' :: 'a' :: 'l' :: 's' :: 'e' :: r => some (Json.bool false, r)
        | _ => none
      else if c = '-' || c.isDigit then
        parseJsonNum cs
      else none

/-- Parse array elements after the opening bracket (leading whitespace
already skipped); `first` is true before the first element. -/
def parseJsonElems : Nat → List Char → List Json → Bool → Option (Json × List Char)
  | 0, _, _, _ => none
  | f + 1, cs, acc, first =>
    match cs with
    | ']' :: r =>
      if first then some (Json.arr acc.reverse, r) else none
    | _ =>
      match parseJsonVal f cs with
      | none => none
      | some (v, r) =>
        match skipJsonWs r with
        | ',' :: r2 => parseJsonElems f (skipJsonWs r2) (v :: acc) false
        | ']' :: r2 => some (Json.arr (v :: acc).reverse, r2)
        | _ => none

/-- Parse object members after the opening brace (leading whitespace
already skipped); `first` is true before the first member. -/
def parseJsonMembers : Nat → List Char → List (String × Json) → Bool →
    Option (Json × List Char)
  | 0, _, _, _ => none
  | f + 1, cs, acc, first =>
    match cs with
    | c :: r =>
      if c = Char.ofNat 125 then
        if first then some (Json.obj acc, r) else none
      else if c = '"' then
        match parseStrBody r.length [] r with
        | none => none
        | some (k, r1) =>
          match skipJsonWs r1 with
          | ':' :: r2 =>
            match parseJsonVal f (skipJsonWs r2) with
            | none => none
            | some (v, r3) =>
              let acc2 := objInsert acc k v
              match skipJsonWs r3 with
              | ',' :: r4 => parseJsonMembers f (skipJsonWs r4) acc2 false
              | c2 :: r4 =>
                if c2 = Char.ofNat 125 then some (Json.obj acc2, r4) else none
              | [] => none
          | _ => none
      else none
    | [] => none

end

/-- The builtin `JSON.parse`: `none` models a thrown `SyntaxError`.
The fuel bounds the recursion depth; two units per consumed character
is sufficient, so valid inputs never exhaust it. -/
def jsonParse (s : String) : Option Json :=
  match parseJsonVal (2 * s.data.length + 4) (skipJsonWs s.data) with
  | some (v, rest) => if skipJsonWs rest = [] then some v else none
  | none => none

/-!
JavaScript object access and value coercions used by the validator.
-/

/-- Field lookup in an object's field list. -/
def lookupField : List (String × Json) → String → Option Json
  | [], _ => none
  | (k', v) :: rest, k => if k' = k then some v else lookupField rest k

/-- JS property read `v.k` for a non-numeric key `k`: a lookup on plain
objects, `undefined` (`none`) on every other `JSON.parse` value (arrays
have no such named properties, and primitives have none we use). -/
def getField (v : Json) (k : String) : Option Json :=
  match v with
  | Json.obj fs => lookupField fs k
  | _ => none

/-- JS property write `v.k = x`: overwrite in place or append on plain
objects.  (The validator only ever assigns to fields of values it has
checked to be objects, so the other branches are unreachable there.) -/
def setField (v : Json) (k : String) (x : Json) : Json :=
  match v with
  | Json.obj fs => Json.obj (objInsert fs k x)
  | other => other

/-- JS `typeof` on a `JSON.parse` value.  Note `typeof null` and
`typeof` of an array are both "object". -/
def jsTypeof : Json → String
  | Json.null => "object"
  | Json.bool _ => "boolean"
  | Json.num _ _ => "number"
  | Json.str _ => "string"
  | Json.arr _ => "object"
  | Json.obj _ => "object"

/-- JS truthiness of a `JSON.parse` value. -/
def truthy : Json → Bool
  | Json.null => false
  | Json.bool b => b
  | Json.num m _ => m ≠ 0
  | Json.str s => s ≠ ""
  | Json.arr _ => true
  | Json.obj _ => true

/-- JS truthiness of a possibly-`undefined` value. -/
def truthyOpt : Option Json → Bool
  | none => false
  | some v => truthy v

/-- An `Error`-kind structured response literal
`{ type: "error", message: m }` as built by the validator and the
orchestrator. -/
def errObj (m : String) : Json :=
  Json.obj [("type", Json.str "error"), ("message", Json.str m)]

/-!
`parseAndValidateAIResponse` (llmService.ts lines 210-284).
-/

/-- Lines 238-243: normalize the `follow_up` field in place.  A truthy
string is stripped of markdown bold; a present value that is neither a
(truthy) string nor `null` is coerced to `null`; `null` and an absent
field are left alone.  (The empty string is falsy in JS, so it falls
into the coerce-to-null branch.) -/
def normalizeFollowUp (pd : Json) : Json :=
  match getField pd "follow_up" with
  | some (Json.str s) =>
    if s ≠ "" then setField pd "follow_up" (Json.str (removeMarkdownBold s))
    else setField pd "follow_up" Json.null
  | some Json.null => pd
  | some _ => setField pd "follow_up" Json.null
  | none => pd

/-- Lines 261-270: coercion of one element of a `list` response's
`items` array.  The JS test `typeof item !== 'object' || item === null`
sends exactly `null` and the primitives to the fixed invalid-structure
item; arrays and objects take the field-wise branch, where a missing or
non-string `point`/`detail` becomes "N/A" and both fields are stripped
of markdown bold. -/
def coerceListItem (item : Json) : Json :=
  match item with
  | Json.arr _ =>
    Json.obj
      [("point", Json.str (removeMarkdownBold
          (match getField item "point" with
           | some (Json.str s) => s
           | _ => "N/A"))),
       ("detail", Json.str (removeMarkdownBold
          (match getField item "detail" with
           | some (Json.str s) => s
           | _ => "N/A")))]
  | Json.obj _ =>
    Json.obj
      [("point", Json.str (removeMarkdownBold
          (match getField item "point" with
           | some (Json.str s) => s
           | _ => "N/A"))),
       ("detail", Json.str (removeMarkdownBold
          (match getField item "detail" with
           | some (Json.str s) => s
           | _ => "N/A")))]
  | _ =>
    Json.obj [("point", Json.str "N/A"), ("detail", Json.str "Invalid item structure")]

/-- Rough JS string conversion of a value, used only inside the PV06
diagnostic message (the claims never inspect that message).  Number
formatting approximates JS. -/
def jsDisplay : Json → String
  | Json.null => "null"
  | Json.bool b => if b then "true" else "false"
  | Json.num m e => if e = 0 then toString m else toString m ++ "e" ++ toString e
  | Json.str s => s
  | Json.arr _ => ""
  | Json.obj _ => "[object Object]"

/-- Display of a possibly-`undefined` value inside a template literal. -/
def jsDisplayOpt : Option Json → String
  | none => "undefined"
  | some v => jsDisplay v

/-- `parseAndValidateAIResponse` (llmService.ts lines 210-284): trim and
unwrap a markdown fence, `JSON.parse`, check the structure, normalize
`follow_up`, then dispatch on the `type` discriminant.  The success
branches return the parsed object itself after its in-place mutations;
every failure returns a fresh `Error`-kind object.  The JS
`typeof parsedData !== 'object' || parsedData === null || !parsedData.type`
test fails every non-object `JSON.parse` result (primitives and `null`
by the first two disjuncts, arrays by the truthiness test on their
absent `type` property), which the first match below reflects. -/
def parseAndValidateAIResponse (rawContentFromLLM : String) (source : String) : Json :=
  let jsonStringToParse := extract rawContentFromLLM
  match jsonParse jsonStringToParse with
  | none =>
    errObj ("AI service response from " ++ source ++ " was not valid JSON. (E:PV01_" ++ source ++ ")")
  | some parsedData =>
    match parsedData with
    | Json.obj fs =>
      if truthyOpt (lookupField fs "type") then
        let pd := normalizeFollowUp (Json.obj fs)
        match getField pd "type" with
        | some (Json.str "text") =>
          match getField pd "answer" with
          | some (Json.str a) => setField pd "answer" (Json.str (removeMarkdownBold a))
          | _ =>
            errObj ("AI \x27text\x27 response from " ++ source ++ " missing \x27answer\x27. (E:PV03_" ++ source ++ ")")
        | some (Json.str "list") =>
          match getField pd "title", getField pd "items" with
          | some (Json.str title), some (Json.arr items) =>
            setField (setField pd "title" (Json.str (removeMarkdownBold title)))
              "items" (Json.arr (items.map coerceListItem))
          | _, _ =>
            errObj ("AI \x27list\x27 response from " ++ source ++ " invalid. (E:PV04_" ++ source ++ ")")
        | some (Json.str "error") =>
          match getField pd "message" with
          | some (Json.str _) => pd
          | _ =>
            errObj ("AI \x27error\x27 response from " ++ source ++ " missing \x27message\x27. (E:PV05_" ++ source ++ ")")
        | ty =>
          errObj ("AI from " ++ source ++ " returned unknown type: \x27" ++ jsDisplayOpt ty ++ "\x27. (E:PV06_" ++ source ++ ")")
      else
        errObj ("AI response from " ++ source ++ " invalid structure. (E:PV02_" ++ source ++ ")")
    | _ =>
      errObj ("AI response from " ++ source ++ " invalid structure. (E:PV02_" ++ source ++ ")")

/-!
The orchestrator `getAnswerFromLLM` with its pre-flight checks and the
two provider adapters (llmService.ts lines 74-206).  Module-level
configuration (the two API key constants, the loaded knowledge-base
text and the environment override) is gathered into a `Config` record;
the network effects of the two adapters are abstracted as functions
from the request they would send to either a thrown error (`.error`,
the error's `message` string) or the provider's reply.  The
orchestrator additionally returns the list of adapter invocations it
performed, in order, so the sequencing claims can be stated.
-/

/-- The provider adapters. -/
inductive Provider where
  | openRouter : Provider
  | googleAI : Provider
deriving DecidableEq

/-- Module-level configuration of llmService.ts: the two API key
constants (the empty string modelling an unconfigured, falsy key), the
knowledge-base text loaded at startup, and the optional
`KNOWLEDGE_BASE_CONTENT_OVERRIDE` environment variable. -/
structure Config where
  openRouterKey : String
  googleKey : String
  knowledgeBase : String
  kbOverrideEnv : Option String

/-- `process.env.KNOWLEDGE_BASE_CONTENT_OVERRIDE || KNOWLEDGE_BASE_CONTENT`:
the JS `||` takes the override only when it is set and truthy
(non-empty). -/
def effectiveKnowledgeBase (cfg : Config) : String :=
  match cfg.kbOverrideEnv with
  | some s => if s ≠ "" then s else cfg.knowledgeBase
  | none => cfg.knowledgeBase

/-- `commonPreChecks` (llmService.ts lines 100-111): `CFG00` when
neither API key is configured, `CFG02` when the effective knowledge
base is empty, otherwise `none` (all checks passed). -/
def commonPreChecks (cfg : Config) : Option Json :=
  if cfg.openRouterKey = "" && cfg.googleKey = "" then
    some (errObj "Critical Error: AI service API key(s) missing. Contact support. (E:CFG00)")
  else if effectiveKnowledgeBase cfg = "" then
    some (errObj "Critical Error: Knowledge base unavailable. Contact support. (E:CFG02)")
  else
    none

/-- JS `String.prototype.substring(a, b)`: clamp both indices to the
string length, swap them if needed, and return the slice between
them. -/
def jsSubstring (s : String) (a b : Nat) : String :=
  let len := s.data.length
  let a' := min a len
  let b' := min b len
  ⟨(s.data.take (max a' b')).drop (min a' b')⟩

/-- `DEFAULT_OPENROUTER_MODEL` (llmService.ts line 14). -/
def DEFAULT_OPENROUTER_MODEL : String := "google/gemma-3-27b-it:free"

/-- `sharedSystemPromptForJSON` (llmService.ts lines 36-71), the system
instruction shared by both adapters. -/
def sharedSystemPromptForJSON : String :=
  "\nYou are a specialized AI assistant for startup fundraising queries.\nYour answers MUST be based *EXCLUSIVELY* on the DOCUMENT provided in the user\x27s message.\nDo not invent information or use external knowledge.\nYour entire response MUST be a single, valid JSON object.\nDo NOT include ANY conversational preamble, introductory sentences, or any text whatsoever outside the JSON structure itself.\nYour response MUST start with \x27\x7b\x27 and end with \x27\x7d\x27.\nIf the DOCUMENT does not contain information to answer the question, or if you cannot confidently answer based SOLELY on the DOCUMENT,\nyour *entire* output MUST be exactly this JSON object:\n\x7b\"type\": \"text\", \"answer\": \"I\x27m sorry, but I cannot find specific information on that topic within the provided fundraising guide.\", \"follow_up\": null\x7d\n\nAvailable JSON response structures:\n\n1.  For textual answers:\n    \x7b\n      \"type\": \"text\",\n      \"answer\": \"A detailed, concise answer derived from the DOCUMENT.\",\n      \"follow_up\": \"An optional, relevant follow-up question based on the answer, or null.\"\n    \x7d\n\n2.  For answers best presented as a list (e.g., steps, tips, components):\n    \x7b\n      \"type\": \"list\",\n      \"title\": \"A brief, descriptive title for the list.\",\n      \"items\": [\n        \x7b \"point\": \"Short heading for the first item.\", \"detail\": \"Detailed explanation for the first item, from the DOCUMENT.\" \x7d,\n        \x7b \"point\": \"Short heading for the second item.\", \"detail\": \"Detailed explanation for the second item, from the DOCUMENT.\" \x7d\n      ],\n      \"follow_up\": \"An optional, relevant follow-up question, or null.\"\n    \x7d\n    Each item in the \"items\" array MUST be an object with \"point\" and \"detail\" string keys.\n\nIMPORTANT FORMATTING RULES FOR JSON STRING VALUES:\n- Ensure all string values are properly escaped (e.g., newlines as \\n, quotes as \\\").\n- DO NOT use Markdown (like **bold** or *italics*).\n"

/-- `userPromptContent` (llmService.ts line 120): the user message of
the OpenRouter request, embedding the knowledge document truncated to
its first 25,000 characters. -/
def userPromptContent (cfg : Config) (question : String) : String :=
  "DOCUMENT:\n---\n" ++ jsSubstring (effectiveKnowledgeBase cfg) 0 25000 ++
    "\n---\nUSER QUESTION: " ++ question

/-- `fullPromptForGoogleAI` (llmService.ts lines 176-187): the single
prompt of the Google AI request (an indented template literal),
embedding the same truncated knowledge document. -/
def fullPromptForGoogleAI (cfg : Config) (question : String) : String :=
  "\n        " ++ sharedSystemPromptForJSON ++ " \n\n        DOCUMENT:\n        ---\n        " ++
    jsSubstring (effectiveKnowledgeBase cfg) 0 25000 ++
    " \n        ---\n\n        USER QUESTION: " ++ question ++
    "\n\n        JSON RESPONSE (ONLY the JSON object, no other text or markdown):\n    "

/-- The payload of the OpenRouter chat-completions request that matters
to the claims: the model and the two message bodies. -/
structure ORRequestBody where
  model : String
  systemContent : String
  userContent : String

/-- `data?.choices?.[0]?.message?.content` on the axios response data.
Optional chaining turns `null`/`undefined` at any step into
`undefined`; a property read on any other non-object simply yields
`undefined` for these keys, and `[0]` on an array takes its head. -/
def orResponseContent (data : Json) : Option Json :=
  match getField data "choices" with
  | none => none
  | some Json.null => none
  | some choices =>
    let first :=
      match choices with
      | Json.arr (x :: _) => some x
      | Json.obj fs => lookupField fs "0"
      | Json.str s =>
        match s.data with
        | c :: _ => some (Json.str ⟨[c]⟩)
        | [] => none
      | _ => none
    match first with
    | none => none
    | some Json.null => none
    | some msg =>
      match getField msg "message" with
      | none => none
      | some Json.null => none
      | some m => getField m "content"

/-- `attemptOpenRouter` (llmService.ts lines 116-155): throw when the
OpenRouter key is unconfigured; build the request; send it (`orNet`
models the `axios.post` round trip, its `.error` a thrown/HTTP
failure, re-thrown unchanged by the adapter's catch block); reject an
empty or non-string completion content with `OR_LR01`; otherwise hand
the raw content to the validator labelled "OpenRouter". -/
def attemptOpenRouter (cfg : Config) (question : String) (modelToUse : String)
    (orNet : ORRequestBody → Except String Json) : Except String Json :=
  if cfg.openRouterKey = "" then
    Except.error "OpenRouter API key not configured for attemptOpenRouter. (E:OR_CFG)"
  else
    let requestBody : ORRequestBody :=
      ⟨modelToUse, sharedSystemPromptForJSON, userPromptContent cfg question⟩
    match orNet requestBody with
    | Except.error e => Except.error e
    | Except.ok data =>
      match orResponseContent data with
      | some (Json.str s) =>
        if jsTrim s = "" then
          Except.error "OpenRouter AI service returned empty or invalid content. (E:OR_LR01)"
        else
          Except.ok (parseAndValidateAIResponse s "OpenRouter")
      | _ => Except.error "OpenRouter AI service returned empty or invalid content. (E:OR_LR01)"

/-- JS `m || d` on error message strings. -/
def msgOr (m d : String) : String :=
  if m = "" then d else m

/-- `getAnswerFromGoogleAI` (llmService.ts lines 158-206): throw when
the Google key is unconfigured (outside the try block, so unwrapped);
send the prompt (`gNet` models the SDK round trip returning the reply
text); an empty reply throws `GA_LR01` inside the try block and is
therefore re-wrapped, like every other failure, into the
`GA_AX`-suffixed message by the catch block; otherwise hand the raw
content to the validator labelled "GoogleAI". -/
def getAnswerFromGoogleAI (cfg : Config) (question : String)
    (gNet : String → Except String String) : Except String Json :=
  if cfg.googleKey = "" then
    Except.error "Google AI API key not configured. (E:GA_CFG)"
  else
    match gNet (fullPromptForGoogleAI cfg question) with
    | Except.error e =>
      Except.error ("Google AI service failed: " ++ msgOr e "Unknown Google AI Error" ++ " (E:GA_AX)")
    | Except.ok raw =>
      if jsTrim raw = "" then
        Except.error "Google AI service failed: Google AI service returned empty content. (E:GA_LR01) (E:GA_AX)"
      else
        Except.ok (parseAndValidateAIResponse raw "GoogleAI")

/-- `getAnswerFromLLM` (llmService.ts lines 75-98): pre-flight checks,
then one attempt against OpenRouter with the default model; on its
failure, one attempt against Google AI when that key is configured
(`F01` when it also fails), or the terminal `F02` error when it is
not.  The second component records the adapter invocations in order. -/
def getAnswerFromLLM (cfg : Config) (question : String)
    (orNet : ORRequestBody → Except String Json)
    (gNet : String → Except String String) : Json × List Provider :=
  match commonPreChecks cfg with
  | some err => (err, [])
  | none =>
    match attemptOpenRouter cfg question DEFAULT_OPENROUTER_MODEL orNet with
    | Except.ok r => (r, [Provider.openRouter])
    | Except.error orErr =>
      if cfg.googleKey ≠ "" then
        match getAnswerFromGoogleAI cfg question gNet with
        | Except.ok r => (r, [Provider.openRouter, Provider.googleAI])
        | Except.error gErr =>
          (errObj ("All AI services failed. Google AI Error: " ++
             msgOr gErr "Unknown Google AI Error" ++ " (E:F01)"),
           [Provider.openRouter, Provider.googleAI])
      else
        (errObj ("Primary AI service failed and no fallback configured. OpenRouter Error: " ++
           msgOr orErr "Unknown OpenRouter Error" ++ " (E:F02)"),
         [Provider.openRouter])

/-!
The `POST /api/ask` request handler (server entry file, lines 28-79).
`connectToDatabase` catches its own failures and `ensureDbConnection`
only re-invokes it, so neither throws; `getAnswerFromLLM` never throws;
the only guarded effect is the history write, whose failure the inner
catch swallows.  The handler is modelled as a function of the
authenticated user id (`req.auth?.userId`), the request body's
`question` value, the orchestrator's response, and whether the history
write succeeds; it returns the HTTP status, the response body, and the
list of history records persisted for this exchange.
-/

/-- A persisted `QAHistory` record (userId, question, llmResponse). -/
structure QARecord where
  userId : String
  question : String
  llmResponse : Json

/-- Outcome of one `POST /api/ask` request. -/
structure AskOutcome where
  status : Nat
  body : Json
  savedRecords : List QARecord

/-- `llmResponse.type === 'text' || llmResponse.type === 'list'`. -/
def savableKind (llmResponse : Json) : Bool :=
  match getField llmResponse "type" with
  | some (Json.str "text") => true
  | some (Json.str "list") => true
  | _ => false

/-- The `POST /api/ask` handler.  A missing, non-string or
blank-after-trim question is answered 400 without touching anything
else; otherwise the orchestrator's response `llmResponse` is sent back
with status 200, and a history record is persisted exactly when a
truthy user id is present, the response kind is text or list, and the
write itself succeeds (its failure is logged and swallowed). -/
def askHandler (authUserId : Option String) (questionBody : Option Json)
    (llmResponse : Json) (saveSucceeds : Bool) : AskOutcome :=
  match questionBody with
  | some (Json.str q) =>
    if jsTrim q = "" then
      ⟨400, errObj "Question is required and must be a non-empty string.", []⟩
    else
      let uidTruthy :=
        match authUserId with
        | some u => u ≠ ""
        | none => false
      let records :=
        if uidTruthy && savableKind llmResponse && saveSucceeds then
          [⟨authUserId.getD "", q, llmResponse⟩]
        else []
      ⟨200, llmResponse, records⟩
  | _ => ⟨400, errObj "Question is required and must be a non-empty string.", []⟩

/-!
Helper lemmas about object field access and the in-place updates the
validator performs.
-/

theorem lookupField_objInsert_self (fs : List (String × Json)) (k : String) (v : Json) :
    lookupField (objInsert fs k v) k = some v := by
  induction fs with
  | nil => simp [objInsert, lookupField]
  | cons p rest ih =>
    by_cases h : p.1 = k
    · simp [objInsert, h, lookupField]
    · simp [objInsert, h, lookupField, ih]

theorem lookupField_objInsert_ne (fs : List (String × Json)) (k k' : String) (v : Json)
    (h : k' ≠ k) : lookupField (objInsert fs k v) k' = lookupField fs k' := by
  induction fs with
  | nil => simp [objInsert, lookupField, Ne.symm h]
  | cons p rest ih =>
    by_cases hp : p.1 = k
    · subst hp
      simp [objInsert, lookupField, Ne.symm h]
    · simp [objInsert, hp, lookupField, ih]

theorem getField_setField_self (fs : List (String × Json)) (k : String) (v : Json) :
    getField (setField (Json.obj fs) k v) k = some v := by
  simp [setField, getField, lookupField_objInsert_self]

theorem getField_setField_ne (fs : List (String × Json)) (k k' : String) (v : Json)
    (h : k' ≠ k) : getField (setField (Json.obj fs) k v) k' = getField (Json.obj fs) k' := by
  simp [setField, getField, lookupField_objInsert_ne _ _ _ _ h]

theorem setField_obj (fs : List (String × Json)) (k : String) (v : Json) :
    setField (Json.obj fs) k v = Json.obj (objInsert fs k v) := rfl

/-- The value of the `follow_up` field after the normalization of
llmService.ts lines 238-243, as a function of its value before
(`none` standing for an absent field). -/
def followUpNorm : Option Json → Option Json
  | some (Json.str s) =>
    if s ≠ "" then some (Json.str (removeMarkdownBold s)) else some Json.null
  | some Json.null => some Json.null
  | some _ => some Json.null
  | none => none

theorem normalizeFollowUp_obj (fs : List (String × Json)) :
    ∃ gs, normalizeFollowUp (Json.obj fs) = Json.obj gs := by
  unfold normalizeFollowUp
  rcases h : getField (Json.obj fs) "follow_up" with _ | v
  · exact ⟨fs, rfl⟩
  · cases v with
    | null => exact ⟨fs, rfl⟩
    | str s =>
      by_cases hs : s ≠ ""
      · exact ⟨objInsert fs "follow_up" (Json.str (removeMarkdownBold s)), by simp [hs, setField]⟩
      · exact ⟨objInsert fs "follow_up" Json.null, by simp [hs, setField]⟩
    | bool b => exact ⟨_, rfl⟩
    | num m e => exact ⟨_, rfl⟩
    | arr l => exact ⟨_, rfl⟩
    | obj o => exact ⟨_, rfl⟩

theorem getField_normalizeFollowUp_ne (fs : List (String × Json)) (k : String)
    (h : k ≠ "follow_up") :
    getField (normalizeFollowUp (Json.obj fs)) k = getField (Json.obj fs) k := by
  unfold normalizeFollowUp
  rcases hf : getField (Json.obj fs) "follow_up" with _ | v
  · rfl
  · cases v with
    | null => rfl
    | str s =>
      by_cases hs : s ≠ "" <;> simp [hs, getField_setField_ne _ _ _ _ h]
    | bool b => exact getField_setField_ne _ _ _ _ h
    | num m e => exact getField_setField_ne _ _ _ _ h
    | arr l => exact getField_setField_ne _ _ _ _ h
    | obj o => exact getField_setField_ne _ _ _ _ h

theorem getField_normalizeFollowUp_followUp (fs : List (String × Json)) :
    getField (normalizeFollowUp (Json.obj fs)) "follow_up" =
      followUpNorm (getField (Json.obj fs) "follow_up") := by
  unfold normalizeFollowUp followUpNorm
  rcases hf : getField (Json.obj fs) "follow_up" with _ | v
  · exact hf
  · cases v with
    | null => exact hf
    | str s =>
      by_cases hs : s ≠ "" <;> simp [hs, getField_setField_self]
    | bool b => exact getField_setField_self _ _ _
    | num m e => exact getField_setField_self _ _ _
    | arr l => exact getField_setField_self _ _ _
    | obj o => exact getField_setField_self _ _ _

/-- Every `Error`-kind literal is a structured answer with a legal
discriminant. -/
theorem errObj_isStructured (m : String) :
    ∃ fs, errObj m = Json.obj fs ∧
      (lookupField fs "type" = some (Json.str "text") ∨
       lookupField fs "type" = some (Json.str "list") ∨
       lookupField fs "type" = some (Json.str "error")) :=
  ⟨_, rfl, Or.inr (Or.inr rfl)⟩

/-- C1: for every input string and provider label the validator
`parseAndValidateAIResponse` is a total function (the embedding needs
no exception effect) and its result is always an object whose `type`
discriminant is exactly one of "text", "list", "error". -/
theorem c1_validator_totality_and_kind (s src : String) :
    ∃ fs, parseAndValidateAIResponse s src = Json.obj fs ∧
      (lookupField fs "type" = some (Json.str "text") ∨
       lookupField fs "type" = some (Json.str "list") ∨
       lookupField fs "type" = some (Json.str "error")) := by
  simp only [parseAndValidateAIResponse]
  cases hp : jsonParse (extract s) with
  | none => exact errObj_isStructured _
  | some pd =>
    cases pd with
    | obj fs =>
      by_cases ht : truthyOpt (lookupField fs "type")
      · simp only [ht, if_true]
        obtain ⟨gs, hgs⟩ := normalizeFollowUp_obj fs
        rw [hgs]
        split
        · rename_i hty
          split
          · rename_i a ha
            refine ⟨objInsert gs "answer" (Json.str (removeMarkdownBold a)), rfl, Or.inl ?_⟩
            rw [lookupField_objInsert_ne _ _ _ _ (by decide)]
            simpa [getField] using hty
          · exact errObj_isStructured _
        · rename_i hty
          split
          · rename_i title items htitle hitems
            refine ⟨objInsert (objInsert gs "title" (Json.str (removeMarkdownBold title)))
              "items" (Json.arr (items.map coerceListItem)), rfl, Or.inr (Or.inl ?_)⟩
            rw [lookupField_objInsert_ne _ _ _ _ (by decide),
              lookupField_objInsert_ne _ _ _ _ (by decide)]
            simpa [getField] using hty
          · exact errObj_isStructured _
        · rename_i hty
          split
          · rename_i m hm
            exact ⟨gs, rfl, Or.inr (Or.inr (by simpa [getField] using hty))⟩
          · exact errObj_isStructured _
        · exact errObj_isStructured _
      · simp only [ht, if_false]
        exact errObj_isStructured _
    | null => exact errObj_isStructured _
    | bool b => exact errObj_isStructured _
    | num m e => exact errObj_isStructured _
    | str s2 => exact errObj_isStructured _
    | arr l => exact errObj_isStructured _

/-- C7: with no credential configured for either provider the
orchestrator immediately returns the `CFG00` error and invokes no
adapter (empty invocation trace); with at least one credential but an
empty effective knowledge document it returns the `CFG02` error, again
invoking no adapter; a missing secondary credential alone is not a
precheck failure. -/
theorem c7_precheck_config_errors (cfg : Config) (q : String)
    (orNet : ORRequestBody → Except String Json) (gNet : String → Except String String) :
    (cfg.openRouterKey = "" → cfg.googleKey = "" →
      getAnswerFromLLM cfg q orNet gNet =
        (errObj "Critical Error: AI service API key(s) missing. Contact support. (E:CFG00)", [])) ∧
    ((cfg.openRouterKey ≠ "" ∨ cfg.googleKey ≠ "") → effectiveKnowledgeBase cfg = "" →
      getAnswerFromLLM cfg q orNet gNet =
        (errObj "Critical Error: Knowledge base unavailable. Contact support. (E:CFG02)", [])) ∧
    (cfg.openRouterKey ≠ "" → cfg.googleKey = "" → effectiveKnowledgeBase cfg ≠ "" →
      commonPreChecks cfg = none) := by
  refine ⟨fun h1 h2 => ?_, fun h1 h2 => ?_, fun h1 h2 h3 => ?_⟩
  · simp [getAnswerFromLLM, commonPreChecks, h1, h2]
  · rcases h1 with h1 | h1 <;> simp [getAnswerFromLLM, commonPreChecks, h1, h2]
  · simp [commonPreChecks, h1, h3]

/-- C7 witness: the three branches at concrete configurations. -/
theorem c7_precheck_config_errors_witness :
    getAnswerFromLLM ⟨"", "", "kb", none⟩ "q" (fun _ => Except.error "e") (fun _ => Except.error "e") =
      (errObj "Critical Error: AI service API key(s) missing. Contact support. (E:CFG00)", []) ∧
    getAnswerFromLLM ⟨"k", "", "", none⟩ "q" (fun _ => Except.error "e") (fun _ => Except.error "e") =
      (errObj "Critical Error: Knowledge base unavailable. Contact support. (E:CFG02)", []) ∧
    commonPreChecks ⟨"k", "", "kb", none⟩ = none :=
  ⟨(c7_precheck_config_errors _ "q" _ _).1 rfl rfl,
   (c7_precheck_config_errors _ "q" _ _).2.1 (Or.inl (by decide)) rfl,
   (c7_precheck_config_errors ⟨"k", "", "kb", none⟩ "q" (fun _ => Except.error "e")
     (fun _ => Except.error "e")).2.2 (by decide) rfl (by decide)⟩

/-- C3: once the pre-flight checks pass, the primary (OpenRouter)
adapter is invoked exactly once and first (the invocation trace is
`[openRouter]` or `[openRouter, googleAI]`); a primary success
short-circuits; the secondary is invoked only after a primary failure
and only when the Google key is configured; and when the primary fails
and the secondary succeeds the orchestrator's result is exactly the
secondary's output, which is the validator applied to the secondary's
raw reply under the "GoogleAI" label. -/
theorem c3_fallback_ordering (cfg : Config) (q : String)
    (orNet : ORRequestBody → Except String Json) (gNet : String → Except String String)
    (hpre : commonPreChecks cfg = none) :
    ((getAnswerFromLLM cfg q orNet gNet).2 = [Provider.openRouter] ∨
     (getAnswerFromLLM cfg q orNet gNet).2 = [Provider.openRouter, Provider.googleAI]) ∧
    (∀ r, attemptOpenRouter cfg q DEFAULT_OPENROUTER_MODEL orNet = Except.ok r →
      getAnswerFromLLM cfg q orNet gNet = (r, [Provider.openRouter])) ∧
    ((getAnswerFromLLM cfg q orNet gNet).2 = [Provider.openRouter, Provider.googleAI] →
      (∃ e, attemptOpenRouter cfg q DEFAULT_OPENROUTER_MODEL orNet = Except.error e) ∧
        cfg.googleKey ≠ "") ∧
    (∀ e r, attemptOpenRouter cfg q DEFAULT_OPENROUTER_MODEL orNet = Except.error e →
      cfg.googleKey ≠ "" → getAnswerFromGoogleAI cfg q gNet = Except.ok r →
      getAnswerFromLLM cfg q orNet gNet = (r, [Provider.openRouter, Provider.googleAI])) ∧
    (∀ raw, gNet (fullPromptForGoogleAI cfg q) = Except.ok raw → jsTrim raw ≠ "" →
      cfg.googleKey ≠ "" →
      getAnswerFromGoogleAI cfg q gNet = Except.ok (parseAndValidateAIResponse raw "GoogleAI")) := by
  simp only [getAnswerFromLLM, hpre]
  have h5 : ∀ raw, gNet (fullPromptForGoogleAI cfg q) = Except.ok raw → jsTrim raw ≠ "" →
      cfg.googleKey ≠ "" →
      getAnswerFromGoogleAI cfg q gNet = Except.ok (parseAndValidateAIResponse raw "GoogleAI") := by
    intro raw hraw ht hg
    simp [getAnswerFromGoogleAI, hg, hraw, ht]
  cases hor : attemptOpenRouter cfg q DEFAULT_OPENROUTER_MODEL orNet with
  | ok r =>
    refine ⟨Or.inl rfl, ?_, ?_, ?_, h5⟩
    · intro r' hr'
      injection hr' with h
      rw [h]
    · intro habs
      simp at habs
    · intro e r' he
      exact Except.noConfusion he
  | error e0 =>
    by_cases hg : cfg.googleKey = ""
    · refine ⟨?_, ?_, ?_, ?_, h5⟩
      · simp [hg]
      · intro r' hr'
        exact Except.noConfusion hr'
      · intro habs
        simp [hg] at habs
      · intro e r' he hg'
        exact absurd hg hg'
    · cases hga : getAnswerFromGoogleAI cfg q gNet with
      | ok r =>
        refine ⟨?_, ?_, fun _ => ⟨⟨e0, rfl⟩, hg⟩, ?_,
          fun raw hraw ht hg' => hga.symm.trans (h5 raw hraw ht hg')⟩
        · simp [hg]
        · intro r' hr'
          exact Except.noConfusion hr'
        · intro e r' he hg' hok
          injection hok with h
          simp [hg, h]
      | error ge =>
        refine ⟨?_, ?_, fun _ => ⟨⟨e0, rfl⟩, hg⟩, ?_,
          fun raw hraw ht hg' => hga.symm.trans (h5 raw hraw ht hg')⟩
        · simp [hg]
        · intro r' hr'
          exact Except.noConfusion hr'
        · intro e r' he hg' hok
          exact Except.noConfusion hok

/-- C3 witness: a configuration where the primary fails and the
secondary succeeds. -/
theorem c3_fallback_ordering_witness :
    ((getAnswerFromLLM ⟨"k", "g", "kb", none⟩ "q" (fun _ => Except.error "boom")
        (fun _ => Except.ok "hi")).2 = [Provider.openRouter] ∨
     (getAnswerFromLLM ⟨"k", "g", "kb", none⟩ "q" (fun _ => Except.error "boom")
        (fun _ => Except.ok "hi")).2 = [Provider.openRouter, Provider.googleAI]) :=
  (c3_fallback_ordering ⟨"k", "g", "kb", none⟩ "q" (fun _ => Except.error "boom")
    (fun _ => Except.ok "hi") rfl).1

theorem savableKind_true (llm : Json) (h : savableKind llm = true) :
    getField llm "type" = some (Json.str "text") ∨
      getField llm "type" = some (Json.str "list") := by
  unfold savableKind at h
  split at h
  · rename_i heq
    exact Or.inl heq
  · rename_i heq
    exact Or.inr heq
  · exact Bool.noConfusion h

theorem savableKind_error (llm : Json) (h : getField llm "type" = some (Json.str "error")) :
    savableKind llm = false := by
  unfold savableKind
  rw [h]
  rfl

/-- C8: a history record is persisted only when the response kind is
text or list and a user identity is present; an `Error`-kind response
or a missing user identity yields zero new records; and a failing
history write is swallowed: the status and the body returned to the
caller are identical whether the write succeeds or fails. -/
theorem c8_persistence_policy (uid : Option String) (qb : Option Json) (llm : Json) (sv : Bool) :
    ((getField llm "type" = some (Json.str "error") ∨ uid = none) →
      (askHandler uid qb llm sv).savedRecords = []) ∧
    ((askHandler uid qb llm sv).savedRecords ≠ [] →
      uid ≠ none ∧ (getField llm "type" = some (Json.str "text") ∨
        getField llm "type" = some (Json.str "list"))) ∧
    (askHandler uid qb llm true).body = (askHandler uid qb llm false).body ∧
    (askHandler uid qb llm true).status = (askHandler uid qb llm false).status := by
  cases qb with
  | none => exact ⟨fun _ => rfl, fun habs => absurd rfl habs, rfl, rfl⟩
  | some v =>
    cases v with
    | str q =>
      by_cases ht : jsTrim q = ""
      · refine ⟨fun _ => ?_, fun habs => ?_, ?_, ?_⟩
        · simp [askHandler, ht]
        · simp [askHandler, ht] at habs
        · simp [askHandler, ht]
        · simp [askHandler, ht]
      · refine ⟨fun h => ?_, fun habs => ?_, ?_, ?_⟩
        · rcases h with h | h
          · simp [askHandler, ht, savableKind_error llm h]
          · subst h
            simp [askHandler, ht]
        · by_cases hu : uid = none
          · subst hu
            simp [askHandler, ht] at habs
          · refine ⟨hu, ?_⟩
            by_cases hs : savableKind llm = true
            · exact savableKind_true llm hs
            · have hs' : savableKind llm = false := by
                revert hs
                cases savableKind llm <;> simp
              simp [askHandler, ht, hs'] at habs
        · simp [askHandler, ht]
        · simp [askHandler, ht]
    | null => exact ⟨fun _ => rfl, fun habs => absurd rfl habs, rfl, rfl⟩
    | bool b => exact ⟨fun _ => rfl, fun habs => absurd rfl habs, rfl, rfl⟩
    | num m e => exact ⟨fun _ => rfl, fun habs => absurd rfl habs, rfl, rfl⟩
    | arr l => exact ⟨fun _ => rfl, fun habs => absurd rfl habs, rfl, rfl⟩
    | obj fs => exact ⟨fun _ => rfl, fun habs => absurd rfl habs, rfl, rfl⟩

/-- C8 witness: an `Error`-kind response with an authenticated user
persists nothing, at a concrete exchange. -/
theorem c8_persistence_policy_witness :
    (askHandler (some "user1") (some (Json.str "what is a SAFE?")) (errObj "boom") true).savedRecords = [] :=
  (c8_persistence_policy (some "user1") (some (Json.str "what is a SAFE?")) (errObj "boom") true).1
    (Or.inl rfl)

theorem jsSubstring_zero_take (s : String) (n : Nat) :
    jsSubstring s 0 n = ⟨s.data.take n⟩ := by
  unfold jsSubstring
  simp only [Nat.zero_min, Nat.zero_max, Nat.min_self, List.drop_zero]
  rcases le_total n s.data.length with h | h
  · rw [min_eq_left h]
  · rw [min_eq_right h, List.take_length, List.take_of_length_le h]

/-- C9: both provider adapters embed the knowledge document truncated
to its first 25,000 characters in the prompt they construct; the
embedded portion is exactly the 25,000-character prefix, hence never
longer than 25,000 characters, and it is the whole document whenever
the document fits the budget. -/
theorem c9_document_truncation (cfg : Config) (q : String) :
    userPromptContent cfg q =
      "DOCUMENT:\n---\n" ++ String.mk ((effectiveKnowledgeBase cfg).data.take 25000) ++
        "\n---\nUSER QUESTION: " ++ q ∧
    fullPromptForGoogleAI cfg q =
      "\n        " ++ sharedSystemPromptForJSON ++ " \n\n        DOCUMENT:\n        ---\n        " ++
        String.mk ((effectiveKnowledgeBase cfg).data.take 25000) ++
        " \n        ---\n\n        USER QUESTION: " ++ q ++
        "\n\n        JSON RESPONSE (ONLY the JSON object, no other text or markdown):\n    " ∧
    (String.mk ((effectiveKnowledgeBase cfg).data.take 25000)).length ≤ 25000 ∧
    ((effectiveKnowledgeBase cfg).length ≤ 25000 →
      String.mk ((effectiveKnowledgeBase cfg).data.take 25000) = effectiveKnowledgeBase cfg) := by
  refine ⟨?_, ?_, ?_, fun h => ?_⟩
  · rw [userPromptContent, jsSubstring_zero_take]
  · rw [fullPromptForGoogleAI, jsSubstring_zero_take]
  · show ((effectiveKnowledgeBase cfg).data.take 25000).length ≤ 25000
    rw [List.length_take]
    exact min_le_left _ _
  · have h' : (effectiveKnowledgeBase cfg).data.length ≤ 25000 := h
    rw [List.take_of_length_le h']

/-- C9 witness: a document shorter than the budget is embedded
unchanged. -/
theorem c9_document_truncation_witness :
    String.mk ((effectiveKnowledgeBase ⟨"k", "g", "small doc", none⟩).data.take 25000) =
      effectiveKnowledgeBase ⟨"k", "g", "small doc", none⟩ :=
  (c9_document_truncation ⟨"k", "g", "small doc", none⟩ "q").2.2.2 (by decide)

/-!
Evaluation lemmas for the three success paths of the validator: when
the parsed value is an object with a recognized `type` and the required
fields of that variant, the validator returns the (follow-up
normalized) object with the variant's own fields rewritten in place.
-/

theorem validate_text_eq (s src : String) (fs : List (String × Json)) (a : String)
    (hp : jsonParse (extract s) = some (Json.obj fs))
    (hty : lookupField fs "type" = some (Json.str "text"))
    (ha : lookupField fs "answer" = some (Json.str a)) :
    parseAndValidateAIResponse s src =
      setField (normalizeFollowUp (Json.obj fs)) "answer"
        (Json.str (removeMarkdownBold a)) := by
  have htr : truthyOpt (lookupField fs "type") = true := by rw [hty]; rfl
  have hty' : getField (normalizeFollowUp (Json.obj fs)) "type" = some (Json.str "text") :=
    (getField_normalizeFollowUp_ne fs "type" (by decide)).trans hty
  have ha' : getField (normalizeFollowUp (Json.obj fs)) "answer" = some (Json.str a) :=
    (getField_normalizeFollowUp_ne fs "answer" (by decide)).trans ha
  simp only [parseAndValidateAIResponse, hp, htr, hty', ha', if_true]

theorem validate_list_eq (s src : String) (fs : List (String × Json))
    (title : String) (items : List Json)
    (hp : jsonParse (extract s) = some (Json.obj fs))
    (hty : lookupField fs "type" = some (Json.str "list"))
    (htitle : lookupField fs "title" = some (Json.str title))
    (hitems : lookupField fs "items" = some (Json.arr items)) :
    parseAndValidateAIResponse s src =
      setField (setField (normalizeFollowUp (Json.obj fs)) "title"
          (Json.str (removeMarkdownBold title)))
        "items" (Json.arr (items.map coerceListItem)) := by
  have htr : truthyOpt (lookupField fs "type") = true := by rw [hty]; rfl
  have hty' : getField (normalizeFollowUp (Json.obj fs)) "type" = some (Json.str "list") :=
    (getField_normalizeFollowUp_ne fs "type" (by decide)).trans hty
  have htitle' : getField (normalizeFollowUp (Json.obj fs)) "title" = some (Json.str title) :=
    (getField_normalizeFollowUp_ne fs "title" (by decide)).trans htitle
  have hitems' : getField (normalizeFollowUp (Json.obj fs)) "items" = some (Json.arr items) :=
    (getField_normalizeFollowUp_ne fs "items" (by decide)).trans hitems
  simp only [parseAndValidateAIResponse, hp, htr, hty', htitle', hitems', if_true]

theorem validate_error_eq (s src : String) (fs : List (String × Json)) (m : String)
    (hp : jsonParse (extract s) = some (Json.obj fs))
    (hty : lookupField fs "type" = some (Json.str "error"))
    (hm : lookupField fs "message" = some (Json.str m)) :
    parseAndValidateAIResponse s src = normalizeFollowUp (Json.obj fs) := by
  have htr : truthyOpt (lookupField fs "type") = true := by rw [hty]; rfl
  have hty' : getField (normalizeFollowUp (Json.obj fs)) "type" = some (Json.str "error") :=
    (getField_normalizeFollowUp_ne fs "type" (by decide)).trans hty
  have hm' : getField (normalizeFollowUp (Json.obj fs)) "message" = some (Json.str m) :=
    (getField_normalizeFollowUp_ne fs "message" (by decide)).trans hm
  simp only [parseAndValidateAIResponse, hp, htr, hty', hm', if_true]

/-- The source's `typeof item.point === 'string' ? item.point : "N/A"`
for a field of an object's field list. -/
def strFieldOr (g : List (String × Json)) (k : String) : String :=
  match lookupField g k with
  | some (Json.str v) => v
  | _ => "N/A"

/-- C2 counterexample: the claim says every non-object element of a
list's `items` becomes `point "N/A" / detail "Invalid item structure"`,
but an array element (which is not a JSON object) takes the JS
`typeof item === 'object'` branch and becomes
`point "N/A" / detail "N/A"` instead. -/
theorem c2_list_array_item_counterexample :
    jsonParse (extract "\x7b\"type\":\"list\",\"title\":\"T\",\"items\":[[]]\x7d") =
      some (Json.obj [("type", Json.str "list"), ("title", Json.str "T"),
        ("items", Json.arr [Json.arr []])]) ∧
    parseAndValidateAIResponse "\x7b\"type\":\"list\",\"title\":\"T\",\"items\":[[]]\x7d" "LLM" =
      Json.obj [("type", Json.str "list"), ("title", Json.str "T"),
        ("items", Json.arr [Json.obj [("point", Json.str "N/A"), ("detail", Json.str "N/A")]])] ∧
    "N/A" ≠ "Invalid item structure" :=
  ⟨rfl, rfl, by decide⟩

/-- C2 (amended): for every input that parses to a JSON object with
type "list", a string title and an items array of length N, the
validator returns a List-kind result whose items sequence also has
length N; every element that is a primitive (string, number, boolean)
or null becomes `{point "N/A", detail "Invalid item structure"}`; every
object element whose point (resp. detail) is not a string gets "N/A"
substituted for that side only; every ARRAY element is treated like an
object with neither field, becoming `{point "N/A", detail "N/A"}`
(not "Invalid item structure"); and markdown bold is stripped from both
fields of every resulting item. -/
theorem c2_list_items_amended (s src : String) (fs : List (String × Json))
    (title : String) (items : List Json)
    (hp : jsonParse (extract s) = some (Json.obj fs))
    (hty : lookupField fs "type" = some (Json.str "list"))
    (htitle : lookupField fs "title" = some (Json.str title))
    (hitems : lookupField fs "items" = some (Json.arr items)) :
    ∃ gs, parseAndValidateAIResponse s src = Json.obj gs ∧
      lookupField gs "type" = some (Json.str "list") ∧
      lookupField gs "title" = some (Json.str (removeMarkdownBold title)) ∧
      lookupField gs "items" = some (Json.arr (items.map coerceListItem)) ∧
      (items.map coerceListItem).length = items.length ∧
      (∀ it ∈ items,
        (((∃ b, it = Json.bool b) ∨ (∃ m e, it = Json.num m e) ∨
            (∃ v, it = Json.str v) ∨ it = Json.null) →
          coerceListItem it =
            Json.obj [("point", Json.str "N/A"),
              ("detail", Json.str "Invalid item structure")]) ∧
        (∀ g, it = Json.obj g →
          coerceListItem it =
            Json.obj [("point", Json.str (removeMarkdownBold (strFieldOr g "point"))),
              ("detail", Json.str (removeMarkdownBold (strFieldOr g "detail")))]) ∧
        (∀ l, it = Json.arr l →
          coerceListItem it =
            Json.obj [("point", Json.str "N/A"), ("detail", Json.str "N/A")])) := by
  obtain ⟨gs0, hgs0⟩ := normalizeFollowUp_obj fs
  have hmain := validate_list_eq s src fs title items hp hty htitle hitems
  rw [hgs0] at hmain
  refine ⟨objInsert (objInsert gs0 "title" (Json.str (removeMarkdownBold title)))
    "items" (Json.arr (items.map coerceListItem)), hmain, ?_, ?_, ?_, ?_, ?_⟩
  · rw [lookupField_objInsert_ne _ _ _ _ (by decide),
      lookupField_objInsert_ne _ _ _ _ (by decide)]
    have h := getField_normalizeFollowUp_ne fs "type" (by decide)
    rw [hgs0] at h
    exact h.trans hty
  · rw [lookupField_objInsert_ne _ _ _ _ (by decide), lookupField_objInsert_self]
  · rw [lookupField_objInsert_self]
  · exact List.length_map _ _
  · intro it _
    refine ⟨fun h => ?_, fun g hg => ?_, fun l hl => ?_⟩
    · rcases h with ⟨b, rfl⟩ | ⟨m, e, rfl⟩ | ⟨v, rfl⟩ | rfl <;> rfl
    · subst hg
      rfl
    · subst hl
      rfl

/-- C2 witness: the spec's own scenario 4 (`items: [42]`) satisfies the
hypotheses and yields the invalid-structure slot. -/
theorem c2_list_items_amended_witness :
    jsonParse (extract "\x7b\"type\":\"list\",\"title\":\"X\",\"items\":[42]\x7d") =
      some (Json.obj [("type", Json.str "list"), ("title", Json.str "X"),
        ("items", Json.arr [Json.num 42 0])]) ∧
    ∃ gs, parseAndValidateAIResponse "\x7b\"type\":\"list\",\"title\":\"X\",\"items\":[42]\x7d"
        "OpenRouter" = Json.obj gs ∧
      lookupField gs "items" = some (Json.arr (List.map coerceListItem [Json.num 42 0])) := by
  refine ⟨rfl, ?_⟩
  obtain ⟨gs, h1, _, _, h4, _, _⟩ :=
    c2_list_items_amended "\x7b\"type\":\"list\",\"title\":\"X\",\"items\":[42]\x7d" "OpenRouter"
      [("type", Json.str "list"), ("title", Json.str "X"), ("items", Json.arr [Json.num 42 0])]
      "X" [Json.num 42 0] rfl rfl rfl rfl
  exact ⟨gs, h1, h4⟩

/-- Does the field list hold a string under key `k`
(JS `typeof fs[k] === 'string'`)? -/
def isStrField (fs : List (String × Json)) (k : String) : Bool :=
  match lookupField fs k with
  | some (Json.str _) => true
  | _ => false

/-- Does the field list hold an array under key `k`
(JS `Array.isArray(fs[k])`)? -/
def isArrField (fs : List (String × Json)) (k : String) : Bool :=
  match lookupField fs k with
  | some (Json.arr _) => true
  | _ => false

/-- A parsed object has a recognized `type` discriminant together with
the required, correctly-typed fields of that variant (the conditions
the validator's dispatch checks, none of which involve `follow_up`). -/
def variantOk (fs : List (String × Json)) : Bool :=
  match lookupField fs "type" with
  | some (Json.str "text") => isStrField fs "answer"
  | some (Json.str "list") => isStrField fs "title" && isArrField fs "items"
  | some (Json.str "error") => isStrField fs "message"
  | _ => false

theorem isStrField_true (fs : List (String × Json)) (k : String)
    (h : isStrField fs k = true) : ∃ v, lookupField fs k = some (Json.str v) := by
  unfold isStrField at h
  split at h
  · rename_i v heq
    exact ⟨v, heq⟩
  · exact Bool.noConfusion h

theorem isArrField_true (fs : List (String × Json)) (k : String)
    (h : isArrField fs k = true) : ∃ l, lookupField fs k = some (Json.arr l) := by
  unfold isArrField at h
  split at h
  · rename_i l heq
    exact ⟨l, heq⟩
  · exact Bool.noConfusion h

theorem lookupField_normalize_eq (fs gs0 : List (String × Json))
    (hgs0 : normalizeFollowUp (Json.obj fs) = Json.obj gs0) (k : String)
    (hk : k ≠ "follow_up") : lookupField gs0 k = lookupField fs k := by
  have h := getField_normalizeFollowUp_ne fs k hk
  rw [hgs0] at h
  exact h

theorem lookupField_normalize_followUp (fs gs0 : List (String × Json))
    (hgs0 : normalizeFollowUp (Json.obj fs) = Json.obj gs0) :
    lookupField gs0 "follow_up" = followUpNorm (lookupField fs "follow_up") := by
  have h := getField_normalizeFollowUp_followUp fs
  rw [hgs0] at h
  exact h

/-- C4 counterexample: `follow_up: ""` is a string, so per the claim the
output should carry the (stripped) string `""`; but the empty string is
falsy in JS, so the source's `parsedData.follow_up && typeof ... ===
'string'` test fails and the field is coerced to `null` instead. -/
theorem c4_follow_up_counterexample :
    jsonParse (extract "\x7b\"type\":\"text\",\"answer\":\"a\",\"follow_up\":\"\"\x7d") =
      some (Json.obj [("type", Json.str "text"), ("answer", Json.str "a"),
        ("follow_up", Json.str "")]) ∧
    parseAndValidateAIResponse "\x7b\"type\":\"text\",\"answer\":\"a\",\"follow_up\":\"\"\x7d" "LLM" =
      Json.obj [("type", Json.str "text"), ("answer", Json.str "a"),
        ("follow_up", Json.null)] ∧
    removeMarkdownBold "" = "" ∧
    Json.null ≠ Json.str "" :=
  ⟨rfl, rfl, rfl, fun h => Json.noConfusion h⟩

/-- C4 (amended): for every input that parses to a JSON object with a
recognized type and that variant's required fields, the validator
accepts it (the output keeps the input's `type`, so an invalid
`follow_up` alone never causes a validation error), and the output's
`follow_up` is: the input's value with markdown bold stripped when it
is a NON-EMPTY string; `null` when it is the empty string or any
present non-string non-null value; `null` when it is `null`; absent
when it is absent. -/
theorem c4_follow_up_amended (s src : String) (fs : List (String × Json))
    (hp : jsonParse (extract s) = some (Json.obj fs))
    (hv : variantOk fs = true) :
    ∃ gs, parseAndValidateAIResponse s src = Json.obj gs ∧
      lookupField gs "type" = lookupField fs "type" ∧
      lookupField gs "follow_up" = followUpNorm (lookupField fs "follow_up") := by
  obtain ⟨gs0, hgs0⟩ := normalizeFollowUp_obj fs
  unfold variantOk at hv
  split at hv
  · rename_i hty
    obtain ⟨a, ha⟩ := isStrField_true fs "answer" hv
    have hmain := validate_text_eq s src fs a hp hty ha
    rw [hgs0] at hmain
    refine ⟨objInsert gs0 "answer" (Json.str (removeMarkdownBold a)), hmain, ?_, ?_⟩
    · rw [lookupField_objInsert_ne _ _ _ _ (by decide)]
      exact lookupField_normalize_eq fs gs0 hgs0 "type" (by decide)
    · rw [lookupField_objInsert_ne _ _ _ _ (by decide)]
      exact lookupField_normalize_followUp fs gs0 hgs0
  · rename_i hty
    rw [Bool.and_eq_true] at hv
    obtain ⟨title, htitle⟩ := isStrField_true fs "title" hv.1
    obtain ⟨items, hitems⟩ := isArrField_true fs "items" hv.2
    have hmain := validate_list_eq s src fs title items hp hty htitle hitems
    rw [hgs0] at hmain
    refine ⟨objInsert (objInsert gs0 "title" (Json.str (removeMarkdownBold title)))
      "items" (Json.arr (items.map coerceListItem)), hmain, ?_, ?_⟩
    · rw [lookupField_objInsert_ne _ _ _ _ (by decide),
        lookupField_objInsert_ne _ _ _ _ (by decide)]
      exact lookupField_normalize_eq fs gs0 hgs0 "type" (by decide)
    · rw [lookupField_objInsert_ne _ _ _ _ (by decide),
        lookupField_objInsert_ne _ _ _ _ (by decide)]
      exact lookupField_normalize_followUp fs gs0 hgs0
  · rename_i hty
    obtain ⟨m, hm⟩ := isStrField_true fs "message" hv
    have hmain := validate_error_eq s src fs m hp hty hm
    rw [hgs0] at hmain
    exact ⟨gs0, hmain, lookupField_normalize_eq fs gs0 hgs0 "type" (by decide),
      lookupField_normalize_followUp fs gs0 hgs0⟩
  · exact Bool.noConfusion hv

/-- C4 witness: a bold-marked non-empty `follow_up` string on a text
response is carried through with the emphasis stripped. -/
theorem c4_follow_up_amended_witness :
    ∃ gs, parseAndValidateAIResponse
        "\x7b\"type\":\"text\",\"answer\":\"a\",\"follow_up\":\"**f**\"\x7d" "LLM" =
        Json.obj gs ∧
      lookupField gs "type" =
        lookupField [("type", Json.str "text"), ("answer", Json.str "a"),
          ("follow_up", Json.str "**f**")] "type" ∧
      lookupField gs "follow_up" =
        followUpNorm (lookupField [("type", Json.str "text"), ("answer", Json.str "a"),
          ("follow_up", Json.str "**f**")] "follow_up") :=
  c4_follow_up_amended "\x7b\"type\":\"text\",\"answer\":\"a\",\"follow_up\":\"**f**\"\x7d" "LLM"
    [("type", Json.str "text"), ("answer", Json.str "a"), ("follow_up", Json.str "**f**")]
    rfl rfl

/-- The fields the validator rewrites in place for a given recognized
discriminant, besides `follow_up`. -/
def normKeys (t : String) : List String :=
  if t = "text" then ["answer"]
  else if t = "list" then ["title", "items"]
  else []

/-- C10 counterexample: on an error-variant response the documented
variant fields are just `message`, so `follow_up: 42` is an additional
property; the claim says additional properties are preserved unchanged,
but the validator normalizes `follow_up` before dispatch and coerces
the 42 to `null`. -/
theorem c10_extra_fields_counterexample :
    jsonParse (extract "\x7b\"type\":\"error\",\"message\":\"m\",\"follow_up\":42\x7d") =
      some (Json.obj [("type", Json.str "error"), ("message", Json.str "m"),
        ("follow_up", Json.num 42 0)]) ∧
    parseAndValidateAIResponse "\x7b\"type\":\"error\",\"message\":\"m\",\"follow_up\":42\x7d"
        "LLM" =
      Json.obj [("type", Json.str "error"), ("message", Json.str "m"),
        ("follow_up", Json.null)] ∧
    Json.null ≠ Json.num 42 0 :=
  ⟨rfl, rfl, fun h => Json.noConfusion h⟩

/-- C10 (amended): for every input that parses to a JSON object with a
recognized type and that variant's required fields, the validator
returns the parsed object itself after its in-place normalization, so
every additional property OTHER THAN `follow_up` (beyond the variant's
rewritten fields: `answer` for text, `title`/`items` for list, nothing
further for error) is preserved unchanged in the returned value;
`follow_up`, however, is normalized in every recognized variant,
including error, rather than preserved. -/
theorem c10_extra_fields_amended (s src : String) (fs : List (String × Json)) (t : String)
    (hp : jsonParse (extract s) = some (Json.obj fs))
    (hty : lookupField fs "type" = some (Json.str t))
    (hv : variantOk fs = true) :
    ∃ gs, parseAndValidateAIResponse s src = Json.obj gs ∧
      ∀ k, k ≠ "follow_up" → k ∉ normKeys t → lookupField gs k = lookupField fs k := by
  obtain ⟨gs0, hgs0⟩ := normalizeFollowUp_obj fs
  unfold variantOk at hv
  split at hv
  · rename_i hty'
    have ht : t = "text" := by
      have := hty.symm.trans hty'
      exact Json.str.inj (Option.some.inj this)
    subst ht
    obtain ⟨a, ha⟩ := isStrField_true fs "answer" hv
    have hmain := validate_text_eq s src fs a hp hty' ha
    rw [hgs0] at hmain
    refine ⟨objInsert gs0 "answer" (Json.str (removeMarkdownBold a)), hmain, ?_⟩
    intro k hk hkn
    have hka : k ≠ "answer" := by
      simp [normKeys] at hkn
      exact hkn
    rw [lookupField_objInsert_ne _ _ _ _ hka]
    exact lookupField_normalize_eq fs gs0 hgs0 k hk
  · rename_i hty'
    have ht : t = "list" := by
      have := hty.symm.trans hty'
      exact Json.str.inj (Option.some.inj this)
    subst ht
    rw [Bool.and_eq_true] at hv
    obtain ⟨title, htitle⟩ := isStrField_true fs "title" hv.1
    obtain ⟨items, hitems⟩ := isArrField_true fs "items" hv.2
    have hmain := validate_list_eq s src fs title items hp hty' htitle hitems
    rw [hgs0] at hmain
    refine ⟨objInsert (objInsert gs0 "title" (Json.str (removeMarkdownBold title)))
      "items" (Json.arr (items.map coerceListItem)), hmain, ?_⟩
    intro k hk hkn
    have hkt : k ≠ "title" ∧ k ≠ "items" := by
      simp [normKeys] at hkn
      exact hkn
    rw [lookupField_objInsert_ne _ _ _ _ hkt.2, lookupField_objInsert_ne _ _ _ _ hkt.1]
    exact lookupField_normalize_eq fs gs0 hgs0 k hk
  · rename_i hty'
    obtain ⟨m, hm⟩ := isStrField_true fs "message" hv
    have hmain := validate_error_eq s src fs m hp hty' hm
    rw [hgs0] at hmain
    exact ⟨gs0, hmain, fun k hk _ => lookupField_normalize_eq fs gs0 hgs0 k hk⟩
  · exact Bool.noConfusion hv

/-- C10 witness: an undocumented extra property on a text response is
preserved unchanged. -/
theorem c10_extra_fields_amended_witness :
    ∃ gs, parseAndValidateAIResponse "\x7b\"type\":\"text\",\"answer\":\"a\",\"extra\":7\x7d"
        "LLM" = Json.obj gs ∧
      ∀ k, k ≠ "follow_up" → k ∉ normKeys "text" →
        lookupField gs k =
          lookupField [("type", Json.str "text"), ("answer", Json.str "a"),
            ("extra", Json.num 7 0)] k :=
  c10_extra_fields_amended "\x7b\"type\":\"text\",\"answer\":\"a\",\"extra\":7\x7d" "LLM"
    [("type", Json.str "text"), ("answer", Json.str "a"), ("extra", Json.num 7 0)]
    "text" rfl rfl rfl

/-- Is a `JSON.parse` outcome a single JSON object? -/
def isJsonObject : Option Json → Bool
  | some (Json.obj _) => true
  | _ => false

/-- Does `hay` contain `needle` as a contiguous run? -/
def containsChars (needle : List Char) : List Char → Bool
  | [] => needle.isEmpty
  | c :: rest => needle.isPrefixOf (c :: rest) || containsChars needle rest

/-- Does the string `hay` contain the string `needle`? -/
def msgContains (hay needle : String) : Bool :=
  containsChars needle.data hay.data

/-- C5 counterexample: the input "42" does not parse as a single JSON
object (it parses as a number), so the claim demands a PV01-coded
error; the validator instead reaches the structure check and returns
the PV02-coded error, whose message does not carry "PV01". -/
theorem c5_pv01_counterexample :
    isJsonObject (jsonParse (extract "42")) = false ∧
    jsonParse (extract "42") = some (Json.num 42 0) ∧
    parseAndValidateAIResponse "42" "OpenRouter" =
      errObj "AI response from OpenRouter invalid structure. (E:PV02_OpenRouter)" ∧
    msgContains "AI response from OpenRouter invalid structure. (E:PV02_OpenRouter)" "PV01"
      = false :=
  ⟨rfl, rfl, rfl, rfl⟩

/-- C5 (amended): for every input string whose trimmed, fence-unwrapped
form is not valid JSON at all (`JSON.parse` throws), the validator
returns an `Error`-kind answer whose message carries the code `PV01`
and the originating provider label.  (Inputs that are valid JSON but
not a single object — such as "42" — get the `PV02` structure error
instead.) -/
theorem c5_pv01_amended (s src : String) (h : jsonParse (extract s) = none) :
    parseAndValidateAIResponse s src =
      errObj ("AI service response from " ++ src ++ " was not valid JSON. (E:PV01_" ++ src ++ ")") ∧
    (∃ pre post : String,
      ("AI service response from " ++ src ++ " was not valid JSON. (E:PV01_" ++ src ++ ")") =
        pre ++ "PV01" ++ post) ∧
    (∃ pre post : String,
      ("AI service response from " ++ src ++ " was not valid JSON. (E:PV01_" ++ src ++ ")") =
        pre ++ src ++ post) := by
  refine ⟨by simp only [parseAndValidateAIResponse, h], ?_, ?_⟩
  · refine ⟨"AI service response from " ++ src ++ " was not valid JSON. (E:",
      "_" ++ src ++ ")", ?_⟩
    apply String.ext
    simp only [String.data_append, List.append_assoc, List.cons_append, List.nil_append]
  · refine ⟨"AI service response from ",
      " was not valid JSON. (E:PV01_" ++ src ++ ")", ?_⟩
    simp [String.append_assoc]

/-- C5 witness: the spec's own scenario 3 ("not json at all"). -/
theorem c5_pv01_amended_witness :
    parseAndValidateAIResponse "not json at all" "OpenRouter" =
      errObj ("AI service response from " ++ "OpenRouter" ++
        " was not valid JSON. (E:PV01_" ++ "OpenRouter" ++ ")") :=
  (c5_pv01_amended "not json at all" "OpenRouter" rfl).1

theorem dropWhile_head_not (p : Char → Bool) (l : List Char) (c : Char) (r : List Char)
    (h : l.dropWhile p = c :: r) : p c = false := by
  induction l with
  | nil => cases h
  | cons a as ih =>
    rw [List.dropWhile_cons] at h
    by_cases ha : p a = true
    · rw [if_pos ha] at h
      exact ih h
    · rw [if_neg ha] at h
      cases h
      simpa using ha

theorem dropWhile_dropWhile (p : Char → Bool) (l : List Char) :
    (l.dropWhile p).dropWhile p = l.dropWhile p := by
  induction l with
  | nil => rfl
  | cons a as ih =>
    rw [List.dropWhile_cons]
    by_cases ha : p a = true
    · rw [if_pos ha]
      exact ih
    · rw [if_neg ha, List.dropWhile_cons, if_neg ha]

theorem jsTrimList_idem (l : List Char) : jsTrimList (jsTrimList l) = jsTrimList l := by
  unfold jsTrimList dropTrailingWs
  have hB : ((((l.dropWhile isJsWsChar).reverse.dropWhile isJsWsChar).reverse).dropWhile
      isJsWsChar) =
      ((l.dropWhile isJsWsChar).reverse.dropWhile isJsWsChar).reverse := by
    cases hc : ((l.dropWhile isJsWsChar).reverse.dropWhile isJsWsChar).reverse with
    | nil => rfl
    | cons c r =>
      have hsfx : (l.dropWhile isJsWsChar).reverse.dropWhile isJsWsChar <:+
          (l.dropWhile isJsWsChar).reverse := List.dropWhile_suffix _
      have hpre : c :: r <+: l.dropWhile isJsWsChar := by
        rw [← hc]
        have h2 := List.reverse_prefix.mpr hsfx
        rwa [List.reverse_reverse] at h2
      obtain ⟨t, ht⟩ := hpre
      have hpc : isJsWsChar c = false :=
        dropWhile_head_not isJsWsChar l c (r ++ t) ht.symm
      rw [List.dropWhile_cons, if_neg (by simp [hpc])]
  rw [hB, List.reverse_reverse, dropWhile_dropWhile]

/-- The extraction step always returns a JS-trim fixed point. -/
theorem jsTrim_extract (s : String) : jsTrim (extract s) = extract s := by
  simp only [extract]
  cases hf : fenceGroup (jsTrim s).data with
  | none =>
    show jsTrim (jsTrim s) = jsTrim s
    unfold jsTrim
    exact congrArg String.mk (jsTrimList_idem s.data)
  | some g =>
    show jsTrim (if g ≠ [] then ⟨jsTrimList g⟩ else jsTrim s) =
      if g ≠ [] then (⟨jsTrimList g⟩ : String) else jsTrim s
    by_cases hg : g ≠ []
    · rw [if_pos hg]
      unfold jsTrim
      exact congrArg String.mk (jsTrimList_idem g)
    · rw [if_neg hg]
      unfold jsTrim
      exact congrArg String.mk (jsTrimList_idem s.data)

/-- C6 counterexample: a fenced block whose body is itself a fenced
block.  One extraction unwraps the outer fence only; a second
extraction unwraps again, so `extract` is not idempotent on this
input. -/
theorem c6_extract_idem_counterexample :
    extract "```\n```json\n\x7b\x7d\n```\n```" = "```json\n\x7b\x7d\n```" ∧
    extract (extract "```\n```json\n\x7b\x7d\n```\n```") = "\x7b\x7d" ∧
    extract (extract "```\n```json\n\x7b\x7d\n```\n```") ≠
      extract "```\n```json\n\x7b\x7d\n```\n```" :=
  ⟨rfl, rfl, by decide⟩

/-- C6 (amended): the fence/markdown extraction is idempotent on every
input whose extraction result is not itself a code fence with a
non-empty body — in particular on every already-unwrapped input.  (On
doubly-fenced input like the counterexample above, a second application
unwraps a second time.) -/
theorem c6_extract_idempotent_amended (x : String)
    (h : ∀ g, fenceGroup (extract x).data = some g → g = []) :
    extract (extract x) = extract x := by
  have hfix : jsTrim (extract x) = extract x := jsTrim_extract x
  generalize hy : extract x = y at hfix h ⊢
  simp only [extract, hfix]
  cases hf : fenceGroup y.data with
  | none => rfl
  | some g =>
    have hg : g = [] := h g hf
    subst hg
    show (if ([] : List Char) ≠ [] then (⟨jsTrimList []⟩ : String) else y) = y
    simp

/-- C6 witness: idempotence on an ordinary fenced reply. -/
theorem c6_extract_idempotent_amended_witness :
    extract (extract "```json\n\x7b\"a\":1\x7d\n```") = extract "```json\n\x7b\"a\":1\x7d\n```" :=
  c6_extract_idempotent_amended "```json\n\x7b\"a\":1\x7d\n```" (fun g hg => by
    rw [(by decide : fenceGroup (extract "```json\n\x7b\"a\":1\x7d\n```").data = none)] at hg
    exact Option.noConfusion hg)
